import Mathlib

/-!
Verification development for the Slack-bot code-change workflow.

The Python sources are embedded shallowly:
* `ai_agent.py` `_parse_agent_response` — the tiered response parsing pipeline,
  including its regular expressions (modelled by a small backtracking matcher
  with Python semantics: ordered alternation, greedy/lazy quantifiers,
  leftmost search, non-overlapping `findall`) and the JSON tier (`json.loads`
  modelled by a standard JSON reader).
* `github_helper.py` — `_detect_file_deletion`, `_delete_files`,
  `_create_ai_generated_code`, `_make_random_change`, `create_random_pr`, and
  the content-fetch loop of `_get_full_codebase_context`.
* `slack_bot.py` — `handle_pr_conversation`, `handle_make_pr_button_click`
  and `_generate_changeset_preview`, with the external collaborators (the
  completion service, the source-control host, the intent classifier) passed
  in as an explicit environment, and the collaborator calls recorded in an
  event trace.
-/

namespace SlackSpec

/-! ## Python string primitives -/

/-- Python `\s` (ASCII portion, which covers all inputs in scope). -/
def isPySpace (c : Char) : Bool :=
  c == ' ' || c == '\t' || c == '\n' || c == '\r' || c == '\x0b' || c == '\x0c'

/-- Python `\w` (ASCII portion). -/
def isWordC (c : Char) : Bool := c.isAlphanum || c == '_'

/-- Python `[a-zA-Z0-9]`. -/
def isAlnumC (c : Char) : Bool := c.isAlphanum

def pyStripL (l : List Char) : List Char :=
  ((l.dropWhile isPySpace).reverse.dropWhile isPySpace).reverse

/-- Python `str.strip()`. -/
def pyStrip (s : String) : String := String.mk (pyStripL s.data)

/-- Python `str.lower()` (ASCII). -/
def pyLower (s : String) : String := String.mk (s.data.map Char.toLower)

/-- Python `str.upper()` (ASCII). -/
def pyUpper (s : String) : String := String.mk (s.data.map Char.toUpper)

/-- Python `str.replace` (all occurrences, left to right, non-overlapping). -/
def replaceAllL (sub repl : List Char) : Nat → List Char → List Char
  | 0, l => l
  | Nat.succ fu, l =>
    match l with
    | [] => []
    | c :: rest =>
      if !sub.isEmpty && sub.isPrefixOf l then
        repl ++ replaceAllL sub repl fu (l.drop sub.length)
      else c :: replaceAllL sub repl fu rest

def pyReplace (s sub repl : String) : String :=
  String.mk (replaceAllL sub.data repl.data s.data.length s.data)

/-- Python `str.split(sep)` for a non-empty separator. -/
def splitOnAuxL (sep : List Char) : Nat → List Char → List Char → List (List Char)
  | 0, acc, l => [acc.reverse ++ l]
  | Nat.succ fu, acc, l =>
    match l with
    | [] => [acc.reverse]
    | c :: rest =>
      if sep.isPrefixOf l then
        acc.reverse :: splitOnAuxL sep fu [] (l.drop sep.length)
      else splitOnAuxL sep fu (c :: acc) rest

def pySplit (s sep : String) : List String :=
  (splitOnAuxL sep.data (s.data.length + 1) [] s.data).map String.mk

/-- Python `sub in s` on character lists. -/
def containsSub (sub : List Char) : List Char → Bool
  | [] => sub.isEmpty
  | c :: rest => sub.isPrefixOf (c :: rest) || containsSub sub rest

/-- Python `sub in s` on strings. -/
def strContains (s sub : String) : Bool := containsSub sub.data s.data

/-! ## A tiny regex engine with Python `re` semantics

Quantifiers carry a greediness flag; alternation is ordered; `bol` is the
multiline `^` (start of string or just after a newline). -/

inductive RE where
  | lit : Bool → List Char → RE
  | cls : (Char → Bool) → RE
  | seq : RE → RE → RE
  | alt : RE → RE → RE
  | opt : Bool → RE → RE
  | star : Bool → RE → RE
  | grp : Nat → RE → RE
  | bol : RE

/-- `e+` as `e e*`. -/
def rplus (g : Bool) (r : RE) : RE := RE.seq r (RE.star g r)

/-- Sequence a list of regex fragments. -/
def rseq (l : List RE) : RE := l.foldr RE.seq (RE.lit false [])

/-- Case-sensitive literal from a string. -/
def rstr (s : String) : RE := RE.lit false s.data

/-- Case-insensitive literal from a string (for `re.IGNORECASE`). -/
def ristr (s : String) : RE := RE.lit true s.data

/-- Ordered alternation of a list (first alternative preferred). -/
def raltL : List RE → RE
  | [] => RE.cls fun _ => false
  | [r] => r
  | r :: rest => RE.alt r (raltL rest)

/-- Matcher state: remaining input, absolute position, whether the previously
consumed character was a newline (for the multiline `^`). -/
structure MSt where
  rest : List Char
  pos : Nat
  prevNl : Bool

/-- Captured groups: `(index, start, stop)`, most recent first. -/
def Caps : Type := List (Nat × Nat × Nat)

def litStep (ci : Bool) : List Char → MSt → Option MSt
  | [], ms => some ms
  | c :: cs, ms =>
    match ms.rest with
    | [] => none
    | d :: ds =>
      if (if ci then c.toLower == d.toLower else c == d) then
        litStep ci cs ⟨ds, ms.pos + 1, d == '\n'⟩
      else none

/-- CPS backtracking matcher.  Every recursive call decreases the fuel, which
is chosen large enough for all concrete uses; alternation and the greediness
flags reproduce Python's preference order. -/
def mtch : Nat → RE → MSt → Caps → (MSt → Caps → Option (MSt × Caps)) →
    Option (MSt × Caps)
  | 0, _, _, _, _ => none
  | Nat.succ fu, re, ms, caps, k =>
    match re with
    | .lit ci l =>
      match litStep ci l ms with
      | some ms1 => k ms1 caps
      | none => none
    | .cls p =>
      match ms.rest with
      | [] => none
      | d :: ds => if p d then k ⟨ds, ms.pos + 1, d == '\n'⟩ caps else none
    | .seq a b => mtch fu a ms caps fun ms1 c1 => mtch fu b ms1 c1 k
    | .alt a b =>
      match mtch fu a ms caps k with
      | some r => some r
      | none => mtch fu b ms caps k
    | .opt g r =>
      if g then
        match mtch fu r ms caps k with
        | some res => some res
        | none => k ms caps
      else
        match k ms caps with
        | some res => some res
        | none => mtch fu r ms caps k
    | .star g r =>
      if g then
        match mtch fu r ms caps (fun ms1 c1 => mtch fu (.star true r) ms1 c1 k) with
        | some res => some res
        | none => k ms caps
      else
        match k ms caps with
        | some res => some res
        | none => mtch fu r ms caps fun ms1 c1 => mtch fu (.star false r) ms1 c1 k
    | .grp i r => mtch fu r ms caps fun ms1 c1 => k ms1 ((i, ms.pos, ms1.pos) :: c1)
    | .bol => if ms.pos == 0 || ms.prevNl then k ms caps else none

def msAt (s : List Char) (p : Nat) : MSt :=
  { rest := s.drop p
    pos := p
    prevNl :=
      match p, s.get? (p - 1) with
      | 0, _ => false
      | _ + 1, some c => c == '\n'
      | _ + 1, none => false }

def fuelFor (s : List Char) : Nat := s.length * 400 + 4000

/-- Attempt a match anchored at position `p`; returns (end, captures). -/
def tryAt (r : RE) (s : List Char) (p : Nat) : Option (Nat × Caps) :=
  match mtch (fuelFor s) r (msAt s p) [] (fun ms c => some (ms, c)) with
  | some (ms, c) => some (ms.pos, c)
  | none => none

def searchAux (r : RE) (s : List Char) : Nat → Nat → Option (Nat × Nat × Caps)
  | 0, _ => none
  | Nat.succ n, p =>
    match tryAt r s p with
    | some (e, caps) => some (p, e, caps)
    | none => searchAux r s n (p + 1)

/-- Python `re.search`: leftmost match as (start, end, captures). -/
def reSearch (r : RE) (s : List Char) : Option (Nat × Nat × Caps) :=
  searchAux r s (s.length + 1) 0

def findallAux (r : RE) (s : List Char) : Nat → Nat → List (Nat × Nat × Caps)
  | 0, _ => []
  | Nat.succ n, p =>
    match searchAux r s (s.length + 1 - p) p with
    | none => []
    | some (st, en, caps) =>
      (st, en, caps) :: findallAux r s n (if en = st then en + 1 else en)

/-- Python `re.findall`: non-overlapping leftmost matches. -/
def reFindall (r : RE) (s : List Char) : List (Nat × Nat × Caps) :=
  findallAux r s (s.length + 1) 0

def subAllAux (r : RE) (s : List Char) : Nat → Nat → List Char
  | 0, p => s.drop p
  | Nat.succ n, p =>
    match searchAux r s (s.length + 1 - p) p with
    | none => s.drop p
    | some (st, en, _) =>
      if en = st then
        (s.drop p).take (st - p) ++ (s.drop st).take 1 ++ subAllAux r s n (st + 1)
      else
        (s.drop p).take (st - p) ++ subAllAux r s n en

/-- Python `re.sub(pattern, '', s)` (all occurrences). -/
def reSubAll (r : RE) (s : List Char) : List Char :=
  subAllAux r s (s.length + 1) 0

/-- Python `re.sub(pattern, '', s, count=1)`. -/
def reSubFirst (r : RE) (s : List Char) : List Char :=
  match reSearch r s with
  | none => s
  | some (st, en, _) => s.take st ++ s.drop en

def capGet (caps : Caps) (i : Nat) : Option (Nat × Nat) :=
  match caps.find? (fun t => t.1 == i) with
  | some t => some (t.2.1, t.2.2)
  | none => none

def sliceStr (s : List Char) (st en : Nat) : String :=
  String.mk ((s.drop st).take (en - st))

/-- Group `i` of a match, as a string (empty when the group did not capture). -/
def capStr (s : List Char) (caps : Caps) (i : Nat) : String :=
  match capGet caps i with
  | some (a, b) => sliceStr s a b
  | none => ""

/-! ## The regular expressions of `ai_agent._parse_agent_response` -/

/-- `\s*` -/
def ws0 : RE := RE.star true (RE.cls isPySpace)

/-- `\s+` (also `[\s\n]+`, since `\n ∈ \s`). -/
def ws1 : RE := rplus true (RE.cls isPySpace)

/-- ``` ``` ``` -/
def fence : RE := rstr "```"

/-- ``[\w]*\n`` — the language tag of a fenced block followed by the newline. -/
def langNl : RE := RE.seq (RE.star true (RE.cls isWordC)) (rstr "\n")

/-- `(.*?)` under `re.DOTALL`, lazily. -/
def lazyAny (i : Nat) : RE := RE.grp i (RE.star false (RE.cls fun _ => true))

/-- `(NEW|MODIFIED|DELETED)` -/
def tagAlt : RE := raltL [rstr "NEW", rstr "MODIFIED", rstr "DELETED"]

/-- `📄\s*File:\s*([^\s\[]+(?:\.[a-zA-Z0-9]+)?)\s*\[(NEW|MODIFIED|DELETED)\]` -/
def fileMarkerRE : RE :=
  rseq [rstr "📄", ws0, rstr "File:", ws0,
    RE.grp 1 (RE.seq (rplus true (RE.cls fun c => !isPySpace c && c != '['))
      (RE.opt true (RE.seq (rstr ".") (rplus true (RE.cls isAlnumC))))),
    ws0, rstr "[", RE.grp 2 tagAlt, rstr "]"]

/-- ``📄\s*File:\s*{re.escape(filepath)}\s*\[{tag}\][\s\S]*?```[\w]*\n(.*?)``` `` -/
def codeForMarkerRE (filepath tag : String) : RE :=
  rseq [rstr "📄", ws0, rstr "File:", ws0, rstr filepath, ws0,
    rstr "[", rstr tag, rstr "]",
    RE.star false (RE.cls fun _ => true),
    fence, langNl, lazyAny 1, fence]

/-- ``File:\s*([^\s\n]+\.[a-zA-Z0-9]+)[\s\n]+```[\w]*\n(.*?)``` `` -/
def spoonosRE : RE :=
  rseq [rstr "File:", ws0,
    RE.grp 1 (rseq [rplus true (RE.cls fun c => !isPySpace c), rstr ".",
      rplus true (RE.cls isAlnumC)]),
    ws1, fence, langNl, lazyAny 2, fence]

/-- ``(?:^|\n)([-a-zA-Z0-9_\x2f]+\.[a-zA-Z0-9]+)[\s\n]+```[\w]*\n(.*?)``` ``
(the source writes the first class as alnum, underscore, slash, hyphen;
with `re.MULTILINE`, so `^` is `bol`). -/
def filenameOnlyRE : RE :=
  rseq [RE.alt RE.bol (rstr "\n"),
    RE.grp 1 (rseq [rplus true (RE.cls fun c => isAlnumC c || c == '_' || c == '/' || c == '-'),
      rstr ".", rplus true (RE.cls isAlnumC)]),
    ws1, fence, langNl, lazyAny 2, fence]

/-- `^.*?File:\s*[^\s\[]+\s*\[(?:NEW|MODIFIED|DELETED)\]\s*\n*` with
`re.MULTILINE` (and no DOTALL: `.` stops at newlines). -/
def headerCleanupRE : RE :=
  rseq [RE.bol, RE.star false (RE.cls fun c => c != '\n'),
    rstr "File:", ws0, rplus true (RE.cls fun c => !isPySpace c && c != '['), ws0,
    rstr "[", tagAlt, rstr "]",
    ws0, RE.star true (RE.cls fun c => c == '\n')]

/-- ``` ```(?:\w+)?\n(.*?)``` ``` (method 1's generic code-block scan). -/
def codeBlockRE : RE :=
  rseq [fence, RE.opt true (rplus true (RE.cls isWordC)), rstr "\n",
    lazyAny 1, fence]

/-- `#\s*(?:File:|Filename:|Path:)\s*(.+)` (no DOTALL). -/
def commentNameRE : RE :=
  rseq [rstr "#", ws0, raltL [rstr "File:", rstr "Filename:", rstr "Path:"], ws0,
    RE.grp 1 (rplus true (RE.cls fun c => c != '\n'))]

/-- `#\s*(?:File:|Filename:|Path:)\s*.+\n` (used with `count=1`). -/
def commentNameLineRE : RE :=
  rseq [rstr "#", ws0, raltL [rstr "File:", rstr "Filename:", rstr "Path:"], ws0,
    rplus true (RE.cls fun c => c != '\n'), rstr "\n"]

/-- ``(?:Here\'s|Here is|Code for|File)\s+(?:the code for\s+)?([^\s:]+\.[a-zA-Z0-9]+):\s*```[\w]*\n(.*?)``` ``
with `re.IGNORECASE | re.DOTALL`. -/
def m2aRE : RE :=
  rseq [raltL [ristr "Here\x27s", ristr "Here is", ristr "Code for", ristr "File"],
    ws1, RE.opt true (RE.seq (ristr "the code for") ws1),
    RE.grp 1 (rseq [rplus true (RE.cls fun c => !isPySpace c && c != ':'), rstr ".",
      rplus true (RE.cls isAlnumC)]),
    rstr ":", ws0, fence, langNl, lazyAny 2, fence]

/-- `` `([^\s]+\.[a-zA-Z0-9]+)`:\s*```[\w]*\n(.*?)``` `` with `re.IGNORECASE | re.DOTALL`. -/
def m2bRE : RE :=
  rseq [rstr "\x60",
    RE.grp 1 (rseq [rplus true (RE.cls fun c => !isPySpace c), rstr ".",
      rplus true (RE.cls isAlnumC)]),
    rstr "\x60", rstr ":", ws0, fence, langNl, lazyAny 2, fence]

/-- ``(?:File|Filename):\s*([^\s\n]+\.[a-zA-Z0-9]+)[\s\n]+```[\w]*\n(.*?)``` ``
with `re.IGNORECASE | re.DOTALL`. -/
def m2cRE : RE :=
  rseq [raltL [ristr "File", ristr "Filename"], rstr ":", ws0,
    RE.grp 1 (rseq [rplus true (RE.cls fun c => !isPySpace c), rstr ".",
      rplus true (RE.cls isAlnumC)]),
    ws1, fence, langNl, lazyAny 2, fence]

/-- `\{[\s\S]*"files"[\s\S]*\}` (method 3's JSON-blob extraction). -/
def jsonBlobRE : RE :=
  rseq [rstr "\x7b", RE.star true (RE.cls fun _ => true),
    rstr "\"files\"", RE.star true (RE.cls fun _ => true), rstr "\x7d"]

/-! ## A JSON reader modelling `json.loads` -/

inductive JVal where
  | jnull : JVal
  | jbool : Bool → JVal
  | jnum : String → JVal
  | jstr : String → JVal
  | jarr : List JVal → JVal
  | jobj : List (String × JVal) → JVal

mutual
def jbeq : JVal → JVal → Bool
  | .jnull, .jnull => true
  | .jbool a, .jbool b => a == b
  | .jnum a, .jnum b => a == b
  | .jstr a, .jstr b => a == b
  | .jarr a, .jarr b => jbeqArr a b
  | .jobj a, .jobj b => jbeqObj a b
  | _, _ => false

def jbeqArr : List JVal → List JVal → Bool
  | [], [] => true
  | a :: as_, b :: bs => jbeq a b && jbeqArr as_ bs
  | _, _ => false

def jbeqObj : List (String × JVal) → List (String × JVal) → Bool
  | [], [] => true
  | (ka, va) :: as_, (kb, vb) :: bs => ka == kb && jbeq va vb && jbeqObj as_ bs
  | _, _ => false
end

/-- Dictionary lookup; Python dicts keep the last value written for a key, so
`json.loads` duplicate keys resolve to the last occurrence. -/
def jobjGet (kvs : List (String × JVal)) (key : String) : Option JVal :=
  match kvs with
  | [] => none
  | (k, v) :: rest =>
    match jobjGet rest key with
    | some w => some w
    | none => if k == key then some v else none

def jskipWs (l : List Char) : List Char :=
  l.dropWhile fun c => c == ' ' || c == '\t' || c == '\n' || c == '\r'

def jhexVal (c : Char) : Option Nat :=
  let n := c.toNat
  if 48 ≤ n ∧ n ≤ 57 then some (n - 48)
  else if 97 ≤ n ∧ n ≤ 102 then some (n - 87)
  else if 65 ≤ n ∧ n ≤ 70 then some (n - 55)
  else none

def jstring : Nat → List Char → Option (List Char × List Char)
  | 0, _ => none
  | Nat.succ fu, l =>
    match l with
    | [] => none
    | '"' :: rest => some ([], rest)
    | '\\' :: e :: rest =>
      let esc : Option (Char × List Char) :=
        match e, rest with
        | '"', r => some ('"', r)
        | '\\', r => some ('\\', r)
        | '/', r => some ('/', r)
        | 'b', r => some ('\x08', r)
        | 'f', r => some ('\x0c', r)
        | 'n', r => some ('\n', r)
        | 'r', r => some ('\r', r)
        | 't', r => some ('\t', r)
        | 'u', a :: b :: c :: d :: r =>
          match jhexVal a, jhexVal b, jhexVal c, jhexVal d with
          | some x, some y, some z, some w =>
            some (Char.ofNat (((x * 16 + y) * 16 + z) * 16 + w), r)
          | _, _, _, _ => none
        | _, _ => none
      match esc with
      | some (c, r) =>
        match jstring fu r with
        | some (cs, r2) => some (c :: cs, r2)
        | none => none
      | none => none
    | c :: rest =>
      if c == '\n' || c == '\t' then none
      else
        match jstring fu rest with
        | some (cs, r2) => some (c :: cs, r2)
        | none => none

def jnumber (l : List Char) : Option (String × List Char) :=
  let (sign, l1) := match l with
    | '-' :: r => ("-".data, r)
    | _ => ([], l)
  let intPart := l1.takeWhile Char.isDigit
  let l2 := l1.dropWhile Char.isDigit
  if intPart.isEmpty then none
  else
    let (frac, l3) :=
      match l2 with
      | '.' :: r =>
        let ds := r.takeWhile Char.isDigit
        if ds.isEmpty then ([], l2) else ('.' :: ds, r.dropWhile Char.isDigit)
      | _ => ([], l2)
    let (expo, l4) :=
      match l3 with
      | e :: r =>
        if e == 'e' || e == 'E' then
          let (es, r1) := match r with
            | '+' :: r2 => (['+'], r2)
            | '-' :: r2 => (['-'], r2)
            | _ => (([] : List Char), r)
          let ds := r1.takeWhile Char.isDigit
          if ds.isEmpty then ([], l3) else (e :: (es ++ ds), r1.dropWhile Char.isDigit)
        else ([], l3)
      | _ => ([], l3)
    some (String.mk (sign ++ intPart ++ frac ++ expo), l4)

mutual
def jvalue : Nat → List Char → Option (JVal × List Char)
  | 0, _ => none
  | Nat.succ fu, l =>
    let l := jskipWs l
    match l with
    | [] => none
    | c :: rest =>
      if c == '"' then
        match jstring (Nat.succ fu) rest with
        | some (cs, r) => some (.jstr (String.mk cs), r)
        | none => none
      else if c == '\x7b' then
        match jskipWs rest with
        | '\x7d' :: r => some (.jobj [], r)
        | r =>
          match jmembers fu r with
          | some (kvs, r2) => some (.jobj kvs, r2)
          | none => none
      else if c == '[' then
        match jskipWs rest with
        | ']' :: r => some (.jarr [], r)
        | r =>
          match jelements fu r with
          | some (vs, r2) => some (.jarr vs, r2)
          | none => none
      else if "true".data.isPrefixOf l then some (.jbool true, l.drop 4)
      else if "false".data.isPrefixOf l then some (.jbool false, l.drop 5)
      else if "null".data.isPrefixOf l then some (.jnull, l.drop 4)
      else
        match jnumber l with
        | some (n, r) => some (.jnum n, r)
        | none => none

def jmembers : Nat → List Char → Option (List (String × JVal) × List Char)
  | 0, _ => none
  | Nat.succ fu, l =>
    match jskipWs l with
    | '"' :: rest =>
      match jstring (Nat.succ fu) rest with
      | some (kcs, r) =>
        match jskipWs r with
        | ':' :: r2 =>
          match jvalue fu r2 with
          | some (v, r3) =>
            match jskipWs r3 with
            | ',' :: r4 =>
              match jmembers fu r4 with
              | some (kvs, r5) => some ((String.mk kcs, v) :: kvs, r5)
              | none => none
            | '\x7d' :: r4 => some ([(String.mk kcs, v)], r4)
            | _ => none
          | none => none
        | _ => none
      | none => none
    | _ => none

def jelements : Nat → List Char → Option (List JVal × List Char)
  | 0, _ => none
  | Nat.succ fu, l =>
    match jvalue fu l with
    | some (v, r) =>
      match jskipWs r with
      | ',' :: r2 =>
        match jelements fu r2 with
        | some (vs, r3) => some (v :: vs, r3)
        | none => none
      | ']' :: r2 => some ([v], r2)
      | _ => none
    | none => none
end

/-- `json.loads`: a full value with nothing but whitespace after it. -/
def jsonLoads (l : List Char) : Option JVal :=
  match jvalue (2 * l.length + 20) l with
  | some (v, rest) => if (jskipWs rest).isEmpty then some v else none
  | none => none

/-! ## `_parse_agent_response` — data model -/

/-- One extracted file entry.  The regex tiers build dictionaries with
`path`, `content`, `description` and optionally `action`; the JSON tier
(method 3) appends the decoded dictionaries as-is, which is why a separate
constructor keeps the raw key/value list. -/
inductive PEntry where
  | tiered (path content description : String) (action : Option String)
  | jsonEntry (d : List (String × JVal))

/-- `f['path']` as a value; `none` models a `KeyError`. -/
def pathValOf : PEntry → Option JVal
  | .tiered p _ _ _ => some (.jstr p)
  | .jsonEntry d => jobjGet d "path"

def pathStrOf : PEntry → String
  | .tiered p _ _ _ => p
  | .jsonEntry d =>
    match jobjGet d "path" with
    | some (.jstr p) => p
    | _ => ""

def contentOf : PEntry → String
  | .tiered _ c _ _ => c
  | .jsonEntry d =>
    match jobjGet d "content" with
    | some (.jstr c) => c
    | _ => ""

/-- The raw `action` key (absent for method-1/2 entries and for JSON entries
without a string `action`). -/
def actionOf : PEntry → Option String
  | .tiered _ _ _ a => a
  | .jsonEntry d =>
    match jobjGet d "action" with
    | some (.jstr s) => some s
    | _ => none

def jmem (p : JVal) : List JVal → Bool
  | [] => false
  | q :: rest => jbeq p q || jmem p rest

/-! ## `_parse_agent_response` — pipeline -/

/-- The configured placeholder denylist (`generic_names` in the source). -/
def genericNames : List String :=
  ["test.py", "example.py", "file.py", "sample.py", "demo.py",
   "example.js", "test.js", "file.js", "sample.js"]

/-- `any(filepath.lower().endswith(name) for name in generic_names)`. -/
def isGenericName (filepath : String) : Bool :=
  genericNames.any fun n => n.data.isSuffixOf (pyLower filepath).data

/-- The repeated header-cleanup substitution
`re.sub(r'^.*?File:...\[(?:NEW|MODIFIED|DELETED)\]\s*\n*', '', code, flags=re.MULTILINE)`. -/
def cleanupHeaders (s : String) : String :=
  String.mk (reSubAll headerCleanupRE s.data)

/-- Tier 0 (tagged markers): `re.findall(file_marker_pattern, ...)` giving
`(filepath, tag)` pairs, then for each marker an optional
`re.search(code_pattern, ...)` for the fenced block; result triples are
`(filepath, code, tag)` in normalized order. -/
def changesetTriples (cs : List Char) : List (String × String × String) :=
  (reFindall fileMarkerRE cs).map fun m =>
    let fp := capStr cs m.2.2 1
    let tg := capStr cs m.2.2 2
    let code :=
      match reSearch (codeForMarkerRE fp tg) cs with
      | some r => capStr cs r.2.2 1
      | none => ""
    (fp, code, tg)

/-- Tier 0b (`File: name` + fenced block); the action defaults to `NEW`. -/
def spoonosTriples (cs : List Char) : List (String × String × String) :=
  (reFindall spoonosRE cs).map fun m =>
    (capStr cs m.2.2 1, capStr cs m.2.2 2, "NEW")

/-- Tier 0c (bare filename line + fenced block); action defaults to `NEW`. -/
def filenameOnlyTriples (cs : List Char) : List (String × String × String) :=
  (reFindall filenameOnlyRE cs).map fun m =>
    (capStr cs m.2.2 1, capStr cs m.2.2 2, "NEW")

/-- Body of the `for i, (filepath, code, tag) in enumerate(normalized_matches)`
loop: strip, uppercase the tag, clean embedded headers, drop generic names and
empty paths, and force empty content for `DELETED`. -/
def processTriple : String × String × String → Option PEntry :=
  fun (fp, code, tag) =>
    let filepath := pyStrip fp
    let codeStripped := pyStrip code
    let tagU := pyUpper tag
    let codeS := pyStrip (cleanupHeaders codeStripped)
    if isGenericName filepath then none
    else if filepath != "" then
      some (.tiered filepath (if tagU == "DELETED" then "" else codeS)
        ("AI-generated file: " ++ filepath) (some tagU))
    else none

def processNormalized (l : List (String × String × String)) : List PEntry :=
  l.filterMap processTriple

/-- The early-return dedup loop (`seen_paths`) used when an explicit file
format was found; every entry there carries a path. -/
def dedupPathsStr : List JVal → List PEntry → List PEntry
  | _, [] => []
  | seen, f :: rest =>
    let p := (pathValOf f).getD .jnull
    if jmem p seen then dedupPathsStr seen rest
    else f :: dedupPathsStr (p :: seen) rest

/-- The final dedup loop; `f['path']` on a JSON entry without a `path` key
raises `KeyError`, modelled as the error case. -/
def dedupPathsE : List JVal → List PEntry → Except String (List PEntry)
  | _, [] => .ok []
  | seen, f :: rest =>
    match pathValOf f with
    | none => .error "KeyError: \x27path\x27"
    | some p =>
      if jmem p seen then dedupPathsE seen rest
      else
        match dedupPathsE (p :: seen) rest with
        | .ok l => .ok (f :: l)
        | .error e => .error e

def pathAlready (fs : List PEntry) (filename : String) : Bool :=
  fs.any fun f => jbeq ((pathValOf f).getD .jnull) (.jstr filename)

/-- Method 1: generic fenced blocks, filename from a leading
`# File:`/`# Filename:`/`# Path:` comment, else `generated_file_{i+1}.py`. -/
def method1Loop (cs : List Char) :
    List (Nat × Nat × Caps) → Nat → List PEntry → List String →
    List PEntry × List String
  | [], _, fs, ex => (fs, ex)
  | m :: rest, i, fs, ex =>
    let code := capStr cs m.2.2 1
    let codeStripped := pyStrip code
    if codeStripped == "" then method1Loop cs rest (i + 1) fs ex
    else if ex.contains codeStripped then method1Loop cs rest (i + 1) fs ex
    else
      let fncs : String × String :=
        match reSearch commentNameRE code.data with
        | some r =>
          (pyStrip (capStr code.data r.2.2 1),
           pyStrip (String.mk (reSubFirst commentNameLineRE codeStripped.data)))
        | none => ("generated_file_" ++ toString (i + 1) ++ ".py", codeStripped)
      let filename := fncs.1
      let codeS := pyStrip (cleanupHeaders fncs.2)
      if pathAlready fs filename then method1Loop cs rest (i + 1) fs ex
      else
        method1Loop cs rest (i + 1)
          (fs ++ [.tiered filename codeS ("Code block " ++ toString (i + 1)) none])
          (ex ++ [codeS])

/-- Method 2: one of the three prose patterns; entries get description
`Extracted from <name>` and no action. -/
def method2Loop (cs : List Char) :
    List (Nat × Nat × Caps) → List PEntry → List String →
    List PEntry × List String
  | [], fs, ex => (fs, ex)
  | m :: rest, fs, ex =>
    let filename := pyStrip (capStr cs m.2.2 1)
    let codeS := pyStrip (cleanupHeaders (pyStrip (capStr cs m.2.2 2)))
    if ex.contains codeS then method2Loop cs rest fs ex
    else if filename != "" && codeS != "" then
      if pathAlready fs filename then method2Loop cs rest fs ex
      else
        method2Loop cs rest
          (fs ++ [.tiered filename codeS ("Extracted from " ++ filename) none])
          (ex ++ [codeS])
    else method2Loop cs rest fs ex

def method2All (cs : List Char) (fs : List PEntry) (ex : List String) :
    List PEntry × List String :=
  let (fs1, ex1) := method2Loop cs (reFindall m2aRE cs) fs ex
  let (fs2, ex2) := method2Loop cs (reFindall m2bRE cs) fs1 ex1
  method2Loop cs (reFindall m2cRE cs) fs2 ex2

/-- Method 3's inner loop over `data['files']`.  A non-string `content`
value makes `.strip()` raise, and the surrounding `except` keeps whatever was
appended before the failure. -/
def m3Loop : List JVal → List PEntry → List String → List PEntry × List String
  | [], fs, ex => (fs, ex)
  | item :: rest, fs, ex =>
    match item with
    | .jobj d =>
      match (jobjGet d "content").getD (.jstr "") with
      | .jstr c =>
        let cstr := pyStrip c
        if cstr != "" && !(ex.contains cstr) then
          m3Loop rest (fs ++ [.jsonEntry d]) (ex ++ [cstr])
        else m3Loop rest fs ex
      | _ => (fs, ex)
    | _ => m3Loop rest fs ex

/-- Method 3: find the JSON-looking blob, `json.loads` it, and merge its
`files` list; any failure is swallowed by the `except`. -/
def method3 (cs : List Char) (fs : List PEntry) (ex : List String) :
    List PEntry × List String :=
  match reSearch jsonBlobRE cs with
  | none => (fs, ex)
  | some (st, en, _) =>
    match jsonLoads ((cs.drop st).take (en - st)) with
    | none => (fs, ex)
    | some v =>
      match v with
      | .jobj kvs =>
        match jobjGet kvs "files" with
        | some (.jarr items) => m3Loop items fs ex
        | _ => (fs, ex)
      | _ => (fs, ex)

def fallbackEntry (s : String) : PEntry :=
  .tiered "ai_generated_code.py" ("# Generated by SpoonOS AI Agent\n\n" ++ s)
    "AI-generated code using SpoonOS (fallback)" none

/-- `_parse_agent_response`.  The result is `Except` because the final
path-dedup loop can raise `KeyError` on JSON-tier entries without a `path`. -/
def parseAgentResponse (s : String) : Except String (List PEntry) :=
  let cs := s.data
  let changeset := changesetTriples cs
  let spoonos := spoonosTriples cs
  let fnOnly := filenameOnlyTriples cs
  let normalized0 := changeset ++ spoonos
  let normalized :=
    if normalized0.isEmpty && !fnOnly.isEmpty then fnOnly else normalized0
  if !normalized.isEmpty then
    .ok (dedupPathsStr [] (processNormalized normalized))
  else
    let r1 := method1Loop cs (reFindall codeBlockRE cs) 0 [] []
    let r2 := method2All cs r1.1 r1.2
    let r3 := method3 cs r2.1 r2.2
    match dedupPathsE [] r3.1 with
    | .error e => .error e
    | .ok uniq =>
      .ok (if uniq.isEmpty && !cs.isEmpty && cs.length > 50 then [fallbackEntry s]
           else uniq)

/-! ## `github_helper._detect_file_deletion` -/

def pyStripChars (cset : List Char) (s : String) : String :=
  String.mk (((s.data.dropWhile (cset.contains ·)).reverse.dropWhile
    (cset.contains ·)).reverse)

def pyRstripChars (cset : List Char) (s : String) : String :=
  String.mk ((s.data.reverse.dropWhile (cset.contains ·)).reverse)

/-- `(?:delete|remove)` (applied under `re.IGNORECASE`). -/
def delOrRemove : RE := RE.alt (ristr "delete") (ristr "remove")

/-- The extension alternation of deletion pattern 1, in source order. -/
def delExtAlt : RE :=
  raltL ((["py", "js", "ts", "tsx", "jsx", "java", "go", "rs", "md", "txt",
    "json", "yaml", "yml", "xml", "html", "css", "sh", "bat", "rb", "php",
    "cpp", "c", "h", "hpp"].map rstr))

def isDelPathC (c : Char) : Bool :=
  isAlnumC c || c == '_' || c == '/' || c == '.' || c == '-'

def isDelPathNoDotC (c : Char) : Bool :=
  isAlnumC c || c == '_' || c == '/' || c == '-'

/-- `(?:delete|remove)\s+(?:the\s+)?(?:file\s+)?([a-zA-Z0-9_\x2f.-]+\.(?:py|js|...))` -/
def delPat1 : RE :=
  rseq [delOrRemove, ws1, RE.opt true (RE.seq (ristr "the") ws1),
    RE.opt true (RE.seq (ristr "file") ws1),
    RE.grp 1 (rseq [rplus true (RE.cls isDelPathC), rstr ".", delExtAlt])]

/-- `(?:delete|remove)\s+["\x27]([a-zA-Z0-9_\x2f.-]+\.[a-zA-Z0-9]+)["\x27]` -/
def delPat2 : RE :=
  rseq [delOrRemove, ws1, RE.cls (fun c => c == '"' || c == '\x27'),
    RE.grp 1 (rseq [rplus true (RE.cls isDelPathC), rstr ".",
      rplus true (RE.cls isAlnumC)]),
    RE.cls (fun c => c == '"' || c == '\x27')]

/-- `(?:delete|remove)\s+(?:the\s+)?(?:file\s+)?([a-zA-Z0-9_\x2f-]+\x2f[a-zA-Z0-9_\x2f.-]+\.[a-zA-Z0-9]+)` -/
def delPat3 : RE :=
  rseq [delOrRemove, ws1, RE.opt true (RE.seq (ristr "the") ws1),
    RE.opt true (RE.seq (ristr "file") ws1),
    RE.grp 1 (rseq [rplus true (RE.cls isDelPathNoDotC), rstr "/",
      rplus true (RE.cls isDelPathC), rstr ".", rplus true (RE.cls isAlnumC)])]

def deletionPatterns : List RE := [delPat1, delPat2, delPat3]

/-- `_detect_file_deletion`: per line, keyword pre-filter, then the three
patterns in order, match post-processing (strip, strip quotes, strip trailing
punctuation) and order-preserving dedup. -/
def detectFileDeletion (task : String) : List String :=
  (pySplit task "\n").foldl
    (fun acc line =>
      let ll := pyLower line
      if !(strContains ll "delete") && !(strContains ll "remove") then acc
      else
        deletionPatterns.foldl
          (fun acc2 pat =>
            (reFindall pat ll.data).foldl
              (fun acc3 m =>
                let fp0 := pyStrip (capStr ll.data m.2.2 1)
                let fp1 := pyStripChars ['"', '\x27'] fp0
                let fp := pyRstripChars ['.', ',', ';', ':', '!', '?'] fp1
                if fp != "" && !(acc3.contains fp) then acc3 ++ [fp] else acc3)
              acc2)
          acc)
    []

/-! ## Collaborator environment and event traces -/

/-- Calls made to the external collaborators, in order. -/
inductive Ev where
  | fetchContext : Ev
  | completionCall (context : String) : Ev
  | hostCreateBranch (name : String) : Ev
  | hostWriteFile (path content : String) : Ev
  | hostDeleteFile (path : String) : Ev
  | hostCreatePR : Ev
deriving DecidableEq

/-- Outcome of `get_contents` + `delete_file` for one path. -/
inductive DelOutcome where
  | ok : DelOutcome
  | notFound : DelOutcome
  | err : DelOutcome
deriving DecidableEq

/-- Outcome of the `update_file`-then-`create_file` attempt for one path. -/
inductive WriteOutcome where
  | updated : WriteOutcome
  | created : WriteOutcome
  | failed : WriteOutcome
deriving DecidableEq

structure ChangeResult where
  success : Bool
  changes : Option String := none
  error : Option String := none
deriving DecidableEq

structure PRResult where
  success : Bool
  prNumber : Option Nat := none
  prUrl : Option String := none
  branchName : Option String := none
  changes : Option String := none
  error : Option String := none
deriving DecidableEq

/-- The external collaborators: completion service, source-control host,
intent classifier, plus the nondeterministic placeholder fallback. -/
structure Env where
  repoName : String
  useAi : Bool
  fetchResult : Except String String
  intentSubmit : String → Bool
  completion : String → Option String → String × Bool
  branchName : String
  branchCreate : Except String Unit
  writeOp : String → WriteOutcome
  deleteOp : String → DelOutcome
  deleteErrMsg : String → String
  prCreate : Except String Nat
  prUrl : Nat → String
  placeholderChange : ChangeResult × List Ev

/-! ## `ai_agent.generate_code_for_task` (text path) -/

structure GenResult where
  success : Bool
  files : List PEntry
  rawResponse : String
  truncated : Bool
  error : Option String

/-- `generate_code_for_task`: one completion call, the truncation warning
appended on `finish_reason == "length"`, then `_parse_agent_response`; any
exception (including the parser's `KeyError`) is caught and reported as a
failed result. -/
def generateCodeForTask (env : Env) (taskDescription : String)
    (context : Option String) : GenResult :=
  let tr := env.completion taskDescription context
  let text :=
    if tr.2 then
      tr.1 ++ "\n\n[WARNING: Response truncated. Last file may be incomplete.]"
    else tr.1
  match parseAgentResponse text with
  | .ok files =>
    { success := true, files := files, rawResponse := text, truncated := tr.2,
      error := none }
  | .error e =>
    { success := false, files := [], rawResponse := "", truncated := false,
      error := some e }

/-! ## `github_helper` submission path -/

/-- The repository-context block built around the cached codebase context in
`_create_ai_generated_code`. -/
def mkFullRepoContext (repoName branch ctx : String) : String :=
  "Repository: " ++ repoName ++ "\nBranch: " ++ branch ++
  "\n\nFULL CODEBASE CONTEXT:\n" ++ ctx ++
  "\n\nIMPORTANT: You have access to ALL existing files above.\n" ++
  "- You can MODIFY existing files (provide complete updated content)\n" ++
  "- You can CREATE new files\n" ++
  "- You can DELETE code from existing files\n" ++
  "- Preserve existing functionality unless explicitly told to remove it\n"

/-- `file_info.get("action", "NEW").upper()`; `none` models the
`AttributeError` raised when a JSON-tier entry has a non-string action. -/
def fileActionOf : PEntry → Option String
  | .tiered _ _ _ a => some (pyUpper (a.getD "NEW"))
  | .jsonEntry d =>
    match jobjGet d "action" with
    | none => some "NEW"
    | some (.jstr s) => some (pyUpper s)
    | some _ => none

/-- The escaped-newline repair applied to each file's content before the
host write. -/
def fixEscapedNewlines (c : String) : String :=
  if strContains c "\\n" && !(strContains c "\n") then pyReplace c "\\n" "\n"
  else c

/-- The per-file loop of `_create_ai_generated_code`: `DELETED` entries go
through delete (404 and other errors are skipped), everything else through
update-or-create; per-file failures are skipped.  The `Bool` is the abort
flag for the action `AttributeError`, which escapes the per-file handling
but keeps earlier results. -/
def createFilesLoop (env : Env) : List PEntry → List String × List Ev × Bool
  | [] => ([], [], false)
  | f :: rest =>
    match fileActionOf f with
    | none => ([], [], true)
    | some action =>
      let path := pathStrOf f
      let content := fixEscapedNewlines (contentOf f)
      let step : List String × List Ev :=
        if action == "DELETED" then
          match env.deleteOp path with
          | .ok => (["Deleted " ++ path], [.hostDeleteFile path])
          | .notFound => ([], [])
          | .err => ([], [])
        else
          match env.writeOp path with
          | .updated => (["Updated " ++ path], [.hostWriteFile path content])
          | .created => (["Created " ++ path], [.hostWriteFile path content])
          | .failed => ([], [])
      let r := createFilesLoop env rest
      (step.1 ++ r.1, step.2 ++ r.2.1, r.2.2)

/-- `_create_ai_generated_code`: replay `cached_files` when non-empty,
otherwise build the repo context and call the completion service; then the
per-file loop and the success/failure report. -/
def createAiGeneratedCode (env : Env) (branch task : String)
    (codebaseContext : Option String) (cachedFiles : List PEntry) :
    ChangeResult × List Ev :=
  let resEvs : GenResult × List Ev :=
    if !cachedFiles.isEmpty then
      ({ success := true, files := cachedFiles, rawResponse := "",
         truncated := false, error := none }, [])
    else
      let repoContext :=
        match codebaseContext with
        | some c => mkFullRepoContext env.repoName branch c
        | none =>
          "Repository: " ++ env.repoName ++ "\nLanguage: Python\nBranch: " ++ branch
      (generateCodeForTask env task (some repoContext), [.completionCall repoContext])
  let result := resEvs.1
  if !result.success || result.files.isEmpty then
    ({ success := false, error := some (result.error.getD "No files generated") },
     resEvs.2)
  else
    let loop := createFilesLoop env result.files
    if loop.2.2 then
      ({ success := false, error := some "AttributeError: \x27upper\x27" },
       resEvs.2 ++ loop.2.1)
    else if !loop.1.isEmpty then
      ({ success := true,
         changes := some ("AI-generated code: " ++ String.intercalate ", " loop.1) },
       resEvs.2 ++ loop.2.1)
    else
      ({ success := false, error := some "Failed to create any files" },
       resEvs.2 ++ loop.2.1)

/-- The per-path loop of `_delete_files`, returning (deleted, errors, events). -/
def deleteFilesLoop (env : Env) : List String → List String × List String × List Ev
  | [] => ([], [], [])
  | p :: rest =>
    let r := deleteFilesLoop env rest
    match env.deleteOp p with
    | .ok => (p :: r.1, r.2.1, .hostDeleteFile p :: r.2.2)
    | .notFound => (r.1, (p ++ " (not found)") :: r.2.1, r.2.2)
    | .err => (r.1, (p ++ " (" ++ env.deleteErrMsg p ++ ")") :: r.2.1, r.2.2)

/-- `_delete_files`: success iff at least one path was deleted; the changes
string lists the deleted paths and, when present, the per-path errors. -/
def deleteFiles (env : Env) (filesToDelete : List String) :
    ChangeResult × List Ev :=
  let r := deleteFilesLoop env filesToDelete
  if !r.1.isEmpty then
    ({ success := true,
       changes := some ("Deleted files: " ++ String.intercalate ", " r.1 ++
         (if !r.2.1.isEmpty then " | Errors: " ++ String.intercalate ", " r.2.1
          else "")) },
     r.2.2)
  else
    ({ success := false,
       error := some ("Could not delete files: " ++
         (if !r.2.1.isEmpty then String.intercalate ", " r.2.1
          else String.intercalate ", " filesToDelete)) },
     r.2.2)

/-- The part of `_make_random_change` after the cached-files attempt:
deletion detection, then fresh AI generation, then the random placeholder. -/
def makeRandomChangeRest (env : Env) (branch task : String)
    (ctx : Option String) : ChangeResult × List Ev :=
  let toDel := detectFileDeletion task
  if !toDel.isEmpty then deleteFiles env toDel
  else if env.useAi then
    let r := createAiGeneratedCode env branch task ctx []
    if r.1.success then r
    else (env.placeholderChange.1, r.2 ++ env.placeholderChange.2)
  else env.placeholderChange

/-- `_make_random_change`: replay cached files first; when that fails, fall
through to deletion detection / fresh generation / placeholder. -/
def makeRandomChange (env : Env) (branch task : String) (ctx : Option String)
    (cached : List PEntry) : ChangeResult × List Ev :=
  if !cached.isEmpty then
    let r := createAiGeneratedCode env branch task ctx cached
    if r.1.success then r
    else
      let r2 := makeRandomChangeRest env branch task ctx
      (r2.1, r.2 ++ r2.2)
  else makeRandomChangeRest env branch task ctx

/-- `create_random_pr`: branch creation, the change step, then the pull
request; branch-naming probes are host reads and are not modelled as writes. -/
def createRandomPr (env : Env) (task : String) (ctx : Option String)
    (cached : List PEntry) : PRResult × List Ev :=
  let bn := env.branchName
  match env.branchCreate with
  | .error e =>
    ({ success := false, error := some ("GitHub API error: " ++ e) },
     [.hostCreateBranch bn])
  | .ok _ =>
    let cr := makeRandomChange env bn task ctx cached
    if !cr.1.success then
      ({ success := false, error := cr.1.error }, .hostCreateBranch bn :: cr.2)
    else
      match env.prCreate with
      | .ok n =>
        ({ success := true, prNumber := some n, prUrl := some (env.prUrl n),
           branchName := some bn,
           changes := some (cr.1.changes.getD "Changes made") },
         .hostCreateBranch bn :: cr.2 ++ [.hostCreatePR])
      | .error e =>
        ({ success := false,
           error := some ("Changes made but PR creation failed: " ++ e),
           branchName := some bn,
           changes := some (cr.1.changes.getD "Changes made") },
         .hostCreateBranch bn :: cr.2 ++ [.hostCreatePR])

/-! ## The content-fetch loop of `_get_full_codebase_context`

After scoring, the source keeps only `scored_files[:2]` and then fetches
contents in order, breaking once `total_chars > max_total_chars`; a failed
fetch (`none`) is skipped. -/

def maxTotalChars : Nat := 50000

def topKSelect {α : Type} (scored : List α) : List α := scored.take 2

/-- The fetch loop: `(files, total, added, parts) ↦ (parts, total, added)`;
the budget check happens before each fetch, on the already-accumulated
total. -/
def fetchContextLoop (budget : Nat) :
    List (String × Option String) → Nat → Nat → List String →
    List String × Nat × Nat
  | [], total, added, parts => (parts, total, added)
  | (fp, c) :: rest, total, added, parts =>
    if total > budget then (parts, total, added)
    else
      match c with
      | none => fetchContextLoop budget rest total added parts
      | some content =>
        fetchContextLoop budget rest (total + content.length) (added + 1)
          (parts ++ ["--- FILE: " ++ fp ++ " ---", content,
            "--- END FILE: " ++ fp ++ " ---", ""])

/-- Aggregate selected-content length of a fetch run started at zero. -/
def fetchTotal (budget : Nat) (files : List (String × Option String)) : Nat :=
  (fetchContextLoop budget files 0 0 []).2.1

/-! ## `slack_bot` — conversation state machine -/

/-- A `pr_conversations` entry (the keys the workflow reads and writes;
`pr_created`, `pr_result` and `last_error` are added lazily in the source and
are therefore optional/flagged here). -/
structure Conv where
  messages : List (String × String)
  initialTask : String
  userId : String
  codebaseContext : Option String
  cachedFiles : List PEntry
  prCreated : Bool
  prResult : Option PRResult
  lastError : Option String

def lookupConv (store : List (String × Conv)) (k : String) : Option Conv :=
  match store.find? (fun kv => kv.1 == k) with
  | some kv => some kv.2
  | none => none

def insertConv (store : List (String × Conv)) (k : String) (c : Conv) :
    List (String × Conv) :=
  if (store.find? (fun kv => kv.1 == k)).isSome then
    store.map fun kv => if kv.1 == k then (k, c) else kv
  else store ++ [(k, c)]

def eraseConv (store : List (String × Conv)) (k : String) :
    List (String × Conv) :=
  store.filter fun kv => kv.1 != k

/-- `"\n\n".join(f"{msg['role']}: {msg['content']}" ...)`. -/
def joinMessages (msgs : List (String × String)) : String :=
  String.intercalate "\n\n" (msgs.map fun m => m.1 ++ ": " ++ m.2)

/-- Append the incoming user message to a conversation's log. -/
def bumpConv (c : Conv) (msg : String) : Conv :=
  { c with messages := c.messages ++ [("user", msg)] }

def newConv (userId msg : String) (isInitial : Bool) : Conv :=
  { messages := [], initialTask := if isInitial then msg else "",
    userId := userId, codebaseContext := none, cachedFiles := [],
    prCreated := false, prResult := none, lastError := none }

/-- The memoized-context error string stored when the fetch raises. -/
def ctxErrorString (repoName e : String) : String :=
  "Repository: " ++ repoName ++ "\n\nError reading codebase: " ++ e

/-- The static instruction block of the planning prompt. -/
def planningRules : String :=
  "IMPORTANT: Propose CONCRETE CODE CHANGES immediately. Do NOT ask clarifying questions.\n\n" ++
  "Respond with a CHANGESET in this format:\n\n" ++
  "📝 PROPOSED CHANGESET\n━━━━━━━━━━━━━━━━━━━━━━━━━━\n📋 CHANGESET SUMMARY\n" ++
  "[One-line summary of what this changeset does]\n\n" ++
  "━━━━━━━━━━━━━━━━━━━━━━━━━━\n📄 File: path/to/file1.html [NEW]\n\n```html\n[Complete file content]\n```\n\n" ++
  "━━━━━━━━━━━━━━━━━━━━━━━━━━\n📄 File: path/to/file2.js [NEW]\n\n```javascript\n[Complete file content]\n```\n\n" ++
  "━━━━━━━━━━━━━━━━━━━━━━━━━━\n📊 Summary: 2 file(s) in this changeset\n📝 Files: path/to/file1.html, path/to/file2.js\n\n" ++
  "Rules:\n- Propose changes immediately, don\x27t ask questions\n" ++
  "- For MULTIPLE files, create SEPARATE file sections (each with 📄 File: header)\n" ++
  "- Use the EXACT filename the user specified (e.g., snake.html not snake.md)\n" ++
  "- For MODIFIED files, show the COMPLETE updated file\n" ++
  "- For NEW files, show the complete new file\n" ++
  "- For DELETED files, use [DELETED] tag and list EACH FILE explicitly by name (e.g., \"delete all .py files\" means list each one: test.py [DELETED], utils.py [DELETED], etc.)\n" ++
  "- DO NOT create files describing deletions - use the [DELETED] tag to actually delete files\n" ++
  "- Base changes on the full codebase context provided\n" ++
  "- Make reasonable assumptions about what the user wants\n"

def planningPrompt (fullContext repoName : String) : String :=
  "Task: " ++ fullContext ++ "\n\nContext: Repository " ++ repoName ++ "\n\n" ++
  planningRules

/-- `file_info.get("path", "unknown")` for preview rendering. -/
def pathDisplay : PEntry → String
  | .tiered p _ _ _ => p
  | .jsonEntry d =>
    match jobjGet d "path" with
    | some (.jstr p) => p
    | some _ => "?"
    | none => "unknown"

def fmtDiffLines (mark : String) (lines : List String) : String :=
  String.join ((lines.take 20).map fun l => mark ++ l ++ "\n") ++
  (if lines.length > 20 then
    "... (" ++ toString (lines.length - 20) ++ " more lines)\n"
   else "")

/-- One file block of the preview diff rendering. -/
def fmtFile (f : PEntry) : String :=
  let fp := pathDisplay f
  let action := (actionOf f).getD "NEW"
  let content := contentOf f
  let lines := if content == "" then [] else pySplit content "\n"
  let n := lines.length
  let core :=
    if action == "DELETED" then
      "🔴 `" ++ fp ++ "` *[DELETED]* `-" ++ toString n ++ "`\n\n```diff\n" ++
        fmtDiffLines "- " lines ++ "```\n\n"
    else if action == "NEW" then
      "🟢 `" ++ fp ++ "` *[NEW]* `+" ++ toString n ++ "`\n\n```diff\n" ++
        fmtDiffLines "+ " lines ++ "```\n\n"
    else
      "🟡 `" ++ fp ++ "` *[MODIFIED]* `~" ++ toString n ++ "`\n\n```diff\n" ++
        fmtDiffLines "+ " lines ++ "```\n\n"
  core ++ "━━━━━━━━━━━━━━━━━━━━━━━━━━\n\n"

/-- The preview formatting of `_generate_changeset_preview`. -/
def formatPreview (parsedFiles : List PEntry) (rawResponse : String)
    (wasTruncated : Bool) : String :=
  if !parsedFiles.isEmpty then
    (if wasTruncated then
      "⚠️ **WARNING**: Response truncated - last file may be incomplete. Consider smaller tasks.\n\n"
     else "") ++
    "📝 PROPOSED CHANGESET\n━━━━━━━━━━━━━━━━━━━━━━━━━━\n\n" ++
    String.join (parsedFiles.map fmtFile) ++
    "📊 Summary: " ++ toString parsedFiles.length ++ " file(s) in this changeset"
  else rawResponse

structure PreviewResult where
  success : Bool
  rawResponse : String := ""
  parsedFiles : List PEntry := []
  truncated : Bool := false
  error : Option String := none

/-- `_generate_changeset_preview`: wraps the prompt, makes one completion
call (through `generate_code_for_task`), and formats the parsed files. -/
def generateChangesetPreview (env : Env) (prompt context : String) :
    PreviewResult × List Ev :=
  if !env.useAi then
    ({ success := false, error := some "AI generator not configured" }, [])
  else
    let fullPrompt :=
      prompt ++ "\n\nCONTEXT:\n" ++ context ++
      "\n\nRemember: This is a PREVIEW. Show the proposed changes as concrete diffs/changesets.\nThe user can refine these changes through conversation before creating the PR.\n"
    let result := generateCodeForTask env fullPrompt (some context)
    let evs := [Ev.completionCall context]
    if !result.success then
      ({ success := false, error := some (result.error.getD "Code generation failed") },
       evs)
    else
      ({ success := true,
         rawResponse := formatPreview result.files result.rawResponse result.truncated,
         parsedFiles := result.files, truncated := result.truncated }, evs)

/-- The truncation banner prepended to the stored assistant message. -/
def truncationBanner : String :=
  "⚠️ **WARNING**: Response was truncated due to length. Last file may be incomplete. Consider breaking this into smaller tasks.\n\n"

/-- The submit-intent branch of `handle_pr_conversation` (the conversation
already holds the appended user message): replay the cached files through
`create_random_pr`; on success mark `pr_created`/`pr_result` (the
conversation is kept), on failure record `last_error` and keep everything
for retry. -/
def submitStep (env : Env) (store : List (String × Conv)) (threadTs : String)
    (conv1 : Conv) : List (String × Conv) × List Ev :=
  let allMessages := joinMessages conv1.messages
  let pr := createRandomPr env allMessages conv1.codebaseContext conv1.cachedFiles
  let conv2 :=
    if pr.1.success then { conv1 with prCreated := true, prResult := some pr.1 }
    else { conv1 with lastError := pr.1.error }
  (insertConv store threadTs conv2, pr.2)

/-- The PROPOSING branch of `handle_pr_conversation`: fetch-and-memoize the
codebase context when absent (storing the error string on a failed fetch),
then one preview generation; on success append the assistant message and
overwrite `cached_files`. -/
def proposeStep (env : Env) (store : List (String × Conv)) (threadTs : String)
    (conv1 : Conv) : List (String × Conv) × List Ev :=
  let fetched : Conv × List Ev :=
    if conv1.codebaseContext = none then
      match env.fetchResult with
      | .ok c => ({ conv1 with codebaseContext := some c }, [Ev.fetchContext])
      | .error e =>
        ({ conv1 with codebaseContext := some (ctxErrorString env.repoName e) },
         [Ev.fetchContext])
    else (conv1, [])
  let conv2 := fetched.1
  let fullContext := joinMessages conv2.messages
  let prompt := planningPrompt fullContext env.repoName
  let ctxStr := conv2.codebaseContext.getD ""
  let pv := generateChangesetPreview env prompt ctxStr
  if !pv.1.success then
    (insertConv store threadTs conv2, fetched.2 ++ pv.2)
  else
    let aiResponse :=
      if pv.1.truncated then truncationBanner ++ pv.1.rawResponse
      else pv.1.rawResponse
    let conv3 :=
      { conv2 with
        messages := conv2.messages ++ [("assistant", aiResponse)],
        cachedFiles := pv.1.parsedFiles }
    (insertConv store threadTs conv3, fetched.2 ++ pv.2)

/-- `handle_pr_conversation`.  Returns the updated store and the collaborator
events, in call order.  The deletion-request shortcut performs its own,
non-memoized context fetch and leaves the store untouched; otherwise the
conversation is created/updated and dispatched to `submitStep` (submit
intent on a non-initial message) or `proposeStep`. -/
def handlePrConversation (env : Env) (store : List (String × Conv))
    (userId msg threadTs : String) (isInitial : Bool) :
    List (String × Conv) × List Ev :=
  let filesToDelete := detectFileDeletion msg
  if !filesToDelete.isEmpty then
    let ctx : Option String :=
      match env.fetchResult with
      | .ok c => some c
      | .error _ => none
    let pr := createRandomPr env msg ctx []
    (store, Ev.fetchContext :: pr.2)
  else
    let conv1 := bumpConv ((lookupConv store threadTs).getD (newConv userId msg isInitial)) msg
    if env.intentSubmit msg && !isInitial then
      submitStep env store threadTs conv1
    else if !env.useAi then (insertConv store threadTs conv1, [])
    else proposeStep env store threadTs conv1

/-- `handle_make_pr_button_click`.  The third component is the `PRResult`
reported back to the thread (the previously recorded one when the
conversation is already marked `pr_created`). -/
def handleMakePrButtonClick (env : Env) (store : List (String × Conv))
    (threadTs : String) : List (String × Conv) × List Ev × Option PRResult :=
  match lookupConv store threadTs with
  | none => (store, [], none)
  | some conv =>
    if conv.prCreated then
      (eraseConv store threadTs, [], conv.prResult)
    else
      let allMessages := joinMessages conv.messages
      let pr := createRandomPr env allMessages conv.codebaseContext conv.cachedFiles
      if pr.1.success then (eraseConv store threadTs, pr.2, some pr.1)
      else (store, pr.2, some pr.1)

/-! ## Event-trace observations -/

def isFetchEv : Ev → Bool
  | .fetchContext => true
  | _ => false

def isCompletionEv : Ev → Bool
  | .completionCall _ => true
  | _ => false

def isHostWriteEv : Ev → Bool
  | .hostCreateBranch _ => true
  | .hostWriteFile _ _ => true
  | .hostDeleteFile _ => true
  | .hostCreatePR => true
  | _ => false

def fetchCount (evs : List Ev) : Nat := (evs.filter isFetchEv).length

def completionCount (evs : List Ev) : Nat := (evs.filter isCompletionEv).length

def completionContexts (evs : List Ev) : List String :=
  evs.filterMap fun e =>
    match e with
    | .completionCall c => some c
    | _ => none

def hostWriteCount (evs : List Ev) : Nat := (evs.filter isHostWriteEv).length

def writtenFiles (evs : List Ev) : List (String × String) :=
  evs.filterMap fun e =>
    match e with
    | .hostWriteFile p c => some (p, c)
    | _ => none

/-- The context value a PROPOSING cycle ends up with: the cached value when
present, otherwise the fetched value or the stored error string. -/
def memoCtx (env : Env) : Option String → String
  | some c => c
  | none =>
    match env.fetchResult with
    | .ok c => c
    | .error e => ctxErrorString env.repoName e

/-- Largest fetched-content length among the candidates (0 when none). -/
def maxContentLen : List (String × Option String) → Nat
  | [] => 0
  | (_, none) :: rest => maxContentLen rest
  | (_, some c) :: rest => max c.length (maxContentLen rest)

/-! ## Concrete environments and states used by the claim theorems -/

/-- A benign collaborator environment: fetch and host operations succeed,
every message classifies as submit intent, the completion service returns an
empty un-truncated response. -/
def envBase : Env :=
  { repoName := "owner/repo"
    useAi := true
    fetchResult := .ok "CTX"
    intentSubmit := fun _ => true
    completion := fun _ _ => ("", false)
    branchName := "feature-x"
    branchCreate := .ok ()
    writeOp := fun _ => .created
    deleteOp := fun _ => .ok
    deleteErrMsg := fun _ => "error"
    prCreate := .ok 43
    prUrl := fun n => "https://example.test/pr/" ++ toString n
    placeholderChange := ({ success := false, error := some "placeholder failed" }, []) }

/-- Branch creation fails on the host. -/
def env2a : Env := { envBase with branchCreate := .error "rate limited" }

/-- Every per-file host write fails. -/
def env2b : Env := { envBase with writeOp := fun _ => .failed }

/-- Writes succeed for `a.py` and fail for every other path. -/
def env7 : Env :=
  { envBase with writeOp := fun p => if p == "a.py" then .created else .failed }

/-- Deletion succeeds for `x.py` and errors for every other path. -/
def envDel : Env :=
  { envBase with deleteOp := fun p => if p == "x.py" then .ok else .err }

/-- Every message classifies as refinement intent. -/
def envRefine : Env := { envBase with intentSubmit := fun _ => false }

/-- The context fetch raises and every message classifies as refinement. -/
def envErr : Env :=
  { envBase with fetchResult := .error "boom", intentSubmit := fun _ => false }

/-- A conversation that has completed a PROPOSING cycle (cached context and
cached files present). -/
def c2conv : Conv :=
  { messages := [("user", "add a widget")]
    initialTask := "add a widget"
    userId := "U"
    codebaseContext := some "CTX"
    cachedFiles := [.tiered "w.py" "pass" "AI-generated file: w.py" (some "NEW")]
    prCreated := false
    prResult := none
    lastError := none }

/-- `c2conv` after one failed submit: retained, with `last_error` recorded
and `cached_files` untouched. -/
def c2store1 : List (String × Conv) :=
  [("t2", { c2conv with
      messages := [("user", "add a widget"), ("user", "make pr")]
      lastError := some "GitHub API error: rate limited" })]

/-- The change-request result recorded by an earlier successful submission. -/
def pr42 : PRResult :=
  { success := true, prNumber := some 42, prUrl := some "u42"
    branchName := some "b0", changes := some "c0" }

/-- A conversation already in the SUBMITTED state (`pr_created`). -/
def conv4 : Conv :=
  { messages := [("user", "add a page")]
    initialTask := "add a page"
    userId := "U"
    codebaseContext := some "CTX"
    cachedFiles := [.tiered "p.py" "pass" "AI-generated file: p.py" (some "NEW")]
    prCreated := true
    prResult := some pr42
    lastError := none }

/-- The result of the second submission that a text submit trigger produces
on `conv4` under `envBase`. -/
def pr43 : PRResult :=
  { success := true, prNumber := some 43
    prUrl := some "https://example.test/pr/43"
    branchName := some "feature-x"
    changes := some "AI-generated code: Created p.py" }

/-! ## Helper lemmas -/

theorem isEmpty_false_of_ne_nil {α : Type} {l : List α} (h : l ≠ []) :
    l.isEmpty = false := by
  cases l with
  | nil => exact absurd rfl h
  | cons a l => rfl

/-- When the tagged-marker and `File:`-prefixed tiers jointly produce at
least one match, the parse result is exactly their processed union. -/
theorem parse_explicit_branch (s : String)
    (h : changesetTriples s.data ++ spoonosTriples s.data ≠ []) :
    parseAgentResponse s =
      .ok (dedupPathsStr [] (processNormalized
        (changesetTriples s.data ++ spoonosTriples s.data))) := by
  have h1 : (changesetTriples s.data ++ spoonosTriples s.data).isEmpty = false :=
    isEmpty_false_of_ne_nil h
  simp [parseAgentResponse, h1]

theorem mem_dedupPathsStr {f : PEntry} :
    ∀ (seen : List JVal) (l : List PEntry), f ∈ dedupPathsStr seen l → f ∈ l := by
  intro seen l
  induction l generalizing seen with
  | nil => intro h; simp [dedupPathsStr] at h
  | cons a rest ih =>
    intro h
    simp only [dedupPathsStr] at h
    split at h
    · exact List.mem_cons_of_mem _ (ih _ h)
    · rcases List.mem_cons.mp h with rfl | h2
      · exact List.mem_cons_self _ _
      · exact List.mem_cons_of_mem _ (ih _ h2)

/-- An entry produced by the normalized-match loop with action `DELETED`
carries empty content (the loop resets it). -/
theorem processTriple_deleted {t : String × String × String} {f : PEntry}
    (hf : processTriple t = some f) (hd : actionOf f = some "DELETED") :
    contentOf f = "" := by
  obtain ⟨fp, code, tag⟩ := t
  simp only [processTriple] at hf
  split at hf
  · exact absurd hf (by simp)
  · split at hf
    · cases hf
      simp only [actionOf, Option.some.injEq] at hd
      simp [contentOf, hd]
    · exact absurd hf (by simp)

theorem lookup_map_replace {k : String} {c : Conv} :
    ∀ store : List (String × Conv),
      (store.find? (fun kv => kv.1 == k)).isSome = true →
      lookupConv (store.map fun kv => if kv.1 == k then (k, c) else kv) k = some c := by
  intro store
  induction store with
  | nil => intro h; simp [List.find?] at h
  | cons a rest ih =>
    intro h
    by_cases ha : a.1 == k
    · simp [lookupConv, List.find?, ha]
    · simp only [List.find?, ha] at h
      simp only [List.map, lookupConv, List.find?, ha, if_neg]
      have := ih h
      simp only [lookupConv] at this
      simpa [ha] using this

theorem lookup_append_new {k : String} {c : Conv} :
    ∀ store : List (String × Conv),
      (store.find? (fun kv => kv.1 == k)) = none →
      lookupConv (store ++ [(k, c)]) k = some c := by
  intro store
  induction store with
  | nil => intro _; simp [lookupConv, List.find?]
  | cons a rest ih =>
    intro h
    simp only [List.find?] at h
    by_cases ha : a.1 == k
    · simp [ha] at h
    · simp only [ha] at h
      simp only [List.cons_append, lookupConv, List.find?, ha]
      have := ih h
      simpa [lookupConv, ha] using this

theorem lookupConv_insertConv (store : List (String × Conv)) (k : String) (c : Conv) :
    lookupConv (insertConv store k c) k = some c := by
  unfold insertConv
  by_cases h : (store.find? (fun kv => kv.1 == k)).isSome
  · simp only [h, if_pos]
    exact lookup_map_replace store h
  · have hn : store.find? (fun kv => kv.1 == k) = none := by
      cases hf : store.find? (fun kv => kv.1 == k) with
      | none => rfl
      | some v => rw [hf] at h; simp at h
    rw [if_neg h]
    exact lookup_append_new store hn

/-- A preview generation with AI enabled emits exactly one completion call,
carrying the grounding context, whether or not the generation succeeds. -/
theorem preview_events (env : Env) (hai : env.useAi = true) (prompt context : String) :
    (generateChangesetPreview env prompt context).2 = [Ev.completionCall context] := by
  unfold generateChangesetPreview
  rw [hai]
  simp only [Bool.not_true, Bool.false_eq_true, if_false]
  split <;> rfl

/-- A non-deletion message that does not classify as submit dispatches to the
PROPOSING branch. -/
theorem handle_to_propose (env : Env) (store : List (String × Conv))
    (u msg t : String) (isInit : Bool)
    (hdel : detectFileDeletion msg = [])
    (hsub : (env.intentSubmit msg && !isInit) = false)
    (hai : env.useAi = true) :
    handlePrConversation env store u msg t isInit =
      proposeStep env store t
        (bumpConv ((lookupConv store t).getD (newConv u msg isInit)) msg) := by
  simp [handlePrConversation, hdel, hsub, hai]

/-- A non-deletion submit-intent message dispatches to the submit branch. -/
theorem handle_to_submit (env : Env) (store : List (String × Conv))
    (u msg t : String) (isInit : Bool)
    (hdel : detectFileDeletion msg = [])
    (hsub : (env.intentSubmit msg && !isInit) = true) :
    handlePrConversation env store u msg t isInit =
      submitStep env store t
        (bumpConv ((lookupConv store t).getD (newConv u msg isInit)) msg) := by
  simp [handlePrConversation, hdel, hsub]

/-- One PROPOSING cycle: the stored conversation memoizes the context (the
fetched value, the stored error string, or the existing cached value), a
fetch event occurs exactly when the cache was absent, and the single
completion call is grounded on the memoized context. -/
theorem propose_spec (env : Env) (store : List (String × Conv)) (t : String)
    (conv1 : Conv) (hai : env.useAi = true) :
    ∃ cv : Conv,
      proposeStep env store t conv1 =
        (insertConv store t cv,
         (if conv1.codebaseContext = none then [Ev.fetchContext] else []) ++
           [Ev.completionCall (memoCtx env conv1.codebaseContext)]) ∧
      cv.codebaseContext = some (memoCtx env conv1.codebaseContext) := by
  cases hctx : conv1.codebaseContext with
  | none =>
    cases hfr : env.fetchResult with
    | ok c =>
      simp only [proposeStep, hctx, hfr, memoCtx, reduceIte]
      rw [preview_events env hai]
      split
      · exact ⟨_, rfl, rfl⟩
      · exact ⟨_, rfl, rfl⟩
    | error e =>
      simp only [proposeStep, hctx, hfr, memoCtx, reduceIte]
      rw [preview_events env hai]
      split
      · exact ⟨_, rfl, rfl⟩
      · exact ⟨_, rfl, rfl⟩
  | some c =>
    simp only [proposeStep, hctx, memoCtx, reduceIte, reduceCtorEq]
    rw [preview_events env hai]
    split
    · exact ⟨_, rfl, hctx⟩
    · exact ⟨_, rfl, rfl⟩


theorem completionCount_append (a b : List Ev) :
    completionCount (a ++ b) = completionCount a + completionCount b := by
  simp [completionCount, List.filter_append]

theorem fetchCount_append (a b : List Ev) :
    fetchCount (a ++ b) = fetchCount a + fetchCount b := by
  simp [fetchCount, List.filter_append]

theorem writtenFiles_append (a b : List Ev) :
    writtenFiles (a ++ b) = writtenFiles a ++ writtenFiles b := by
  simp [writtenFiles]

theorem submit_fail_spec (env : Env) (store : List (String × Conv)) (t : String)
    (conv1 : Conv)
    (hf : (createRandomPr env (joinMessages conv1.messages) conv1.codebaseContext
      conv1.cachedFiles).1.success = false) :
    submitStep env store t conv1 =
      (insertConv store t
        { conv1 with lastError := (createRandomPr env (joinMessages conv1.messages)
            conv1.codebaseContext conv1.cachedFiles).1.error },
       (createRandomPr env (joinMessages conv1.messages) conv1.codebaseContext
         conv1.cachedFiles).2) := by
  simp [submitStep, hf]

theorem createFilesLoop_no_completion (env : Env) :
    ∀ files : List PEntry, completionCount (createFilesLoop env files).2.1 = 0 := by
  intro files
  induction files with
  | nil => rfl
  | cons f rest ih =>
    simp only [createFilesLoop]
    cases hfa : fileActionOf f with
    | none => rfl
    | some action =>
      rw [completionCount_append, ih]
      split
      · cases env.deleteOp (pathStrOf f) <;> simp [completionCount, isCompletionEv]
      · cases env.writeOp (pathStrOf f) <;> simp [completionCount, isCompletionEv]

theorem createFilesLoop_written (env : Env) :
    ∀ files : List PEntry,
      (∀ f ∈ files, (fileActionOf f).isSome ∧ fileActionOf f ≠ some "DELETED" ∧
        env.writeOp (pathStrOf f) ≠ .failed) →
      writtenFiles (createFilesLoop env files).2.1 =
        files.map fun f => (pathStrOf f, fixEscapedNewlines (contentOf f)) := by
  intro files
  induction files with
  | nil => intro _; rfl
  | cons f rest ih =>
    intro h
    have hf := h f (List.mem_cons_self _ _)
    have hrest : ∀ g ∈ rest, (fileActionOf g).isSome ∧ fileActionOf g ≠ some "DELETED" ∧
        env.writeOp (pathStrOf g) ≠ .failed :=
      fun g hg => h g (List.mem_cons_of_mem _ hg)
    obtain ⟨hs, hnd, hw⟩ := hf
    cases hfa : fileActionOf f with
    | none => rw [hfa] at hs; simp at hs
    | some a =>
      have hne : (a == "DELETED") = false := by
        rw [hfa] at hnd
        have : a ≠ "DELETED" := fun hcon => hnd (by rw [hcon])
        exact beq_eq_false_iff_ne.mpr this
      simp only [createFilesLoop, hfa, hne, Bool.false_eq_true, if_false]
      cases hwo : env.writeOp (pathStrOf f) with
      | updated => rw [writtenFiles_append, ih hrest]; rfl
      | created => rw [writtenFiles_append, ih hrest]; rfl
      | failed => exact absurd hwo hw

theorem fetchLoop_total_le (budget : Nat) :
    ∀ (files : List (String × Option String)) (total added : Nat) (parts : List String),
      (fetchContextLoop budget files total added parts).2.1 ≤
        max total (budget + maxContentLen files) := by
  intro files
  induction files with
  | nil => intro total added parts; exact le_max_left _ _
  | cons a rest ih =>
    obtain ⟨fp, c⟩ := a
    intro total added parts
    simp only [fetchContextLoop]
    split
    · exact le_max_left _ _
    · rename_i hle
      cases c with
      | none =>
        refine le_trans (ih total added parts) ?_
        simp [maxContentLen]
      | some content =>
        refine le_trans (ih (total + content.length) (added + 1) _) ?_
        apply max_le
        · refine le_trans (Nat.add_le_add (Nat.le_of_not_lt hle)
            (le_max_left content.length (maxContentLen rest))) ?_
          exact le_trans (le_of_eq (by simp [maxContentLen])) (le_max_right _ _)
        · refine le_trans ?_ (le_max_right total _)
          apply Nat.add_le_add_left
          exact le_trans (le_max_right content.length _) (le_of_eq (by simp [maxContentLen]))



/-! ## Claim theorems -/

/-- Claim C1, counterexample (corrected): on this input the tagged-marker
tier (tier 1) yields the marker for `a.py`, yet the parse result also
contains `b.py`, contributed by the `File:`-prefixed tier (tier 2) — so a
tier-1 match does not suppress the other tiers. -/
theorem C1_counterexample :
    changesetTriples "📄 File: a.py [NEW]\n```\nx\n```\nFile: b.py\n```\ny\n```".data =
      [("a.py", "x\n", "NEW")] ∧
    spoonosTriples "📄 File: a.py [NEW]\n```\nx\n```\nFile: b.py\n```\ny\n```".data =
      [("b.py", "y\n", "NEW")] ∧
    parseAgentResponse "📄 File: a.py [NEW]\n```\nx\n```\nFile: b.py\n```\ny\n```" =
      .ok [.tiered "a.py" "x" "AI-generated file: a.py" (some "NEW"),
           .tiered "b.py" "y" "AI-generated file: b.py" (some "NEW")] :=
  ⟨by rfl, by rfl, by rfl⟩

/-- Claim C1, amended: when the tagged-marker tier yields at least one match,
the parse result is exactly the processed, path-deduplicated union of the
tagged-marker and `File:`-prefixed tiers — tiers 1 and 2 are collected
together, and only the remaining tiers are suppressed. -/
theorem C1_amended (s : String) (h : changesetTriples s.data ≠ []) :
    parseAgentResponse s =
      .ok (dedupPathsStr [] (processNormalized
        (changesetTriples s.data ++ spoonosTriples s.data))) :=
  parse_explicit_branch s fun hcon => h (List.append_eq_nil.mp hcon).1

/-- Witness for `C1_amended` at a concrete input. -/
theorem C1_amended_witness :
    parseAgentResponse "📄 File: w.py [NEW]\n```\nz\n```" =
      .ok (dedupPathsStr [] (processNormalized
        (changesetTriples "📄 File: w.py [NEW]\n```\nz\n```".data ++
          spoonosTriples "📄 File: w.py [NEW]\n```\nz\n```".data))) :=
  C1_amended "📄 File: w.py [NEW]\n```\nz\n```" (by decide)

/-- Claim C5 (code_bug): the parser is not total.  On a response consisting
of a JSON payload whose `files` entry lacks a `path` key, the JSON tier
appends the raw dictionary and the final path-dedup loop raises
`KeyError: \x27path\x27` (the loop sits outside the tier\x27s
`try`/`except`), contradicting the never-throws contract. -/
theorem C5_parser_raises :
    parseAgentResponse "\x7b\"files\": [\x7b\"content\": \"print(1)\"\x7d]\x7d" =
      .error "KeyError: \x27path\x27" := by rfl

/-- Claim C8, counterexample (corrected): the denylist drop is an
`endswith` test, not exact equality.  `latest.py` equals none of the
placeholder names, yet the tagged-marker entry for it is dropped and the
parse result is empty. -/
theorem C8_counterexample :
    changesetTriples "📄 File: latest.py [NEW]\n```\ncode\n```".data =
      [("latest.py", "code\n", "NEW")] ∧
    parseAgentResponse "📄 File: latest.py [NEW]\n```\ncode\n```" = .ok [] ∧
    genericNames.all (fun n => "latest.py" != n) = true :=
  ⟨by rfl, by rfl, by rfl⟩

/-- Claim C8, amended: within the explicit-filename branch an entry is
dropped exactly when its stripped filename, lowercased, ends with one of the
placeholder names (or the stripped filename is empty); the filter does not
apply to later tiers — a comment-named `test.py` block from the
code-block tier is kept. -/
theorem C8_amended :
    (∀ fp code tag : String,
      processTriple (fp, code, tag) = none ↔
        (isGenericName (pyStrip fp) = true ∨ pyStrip fp = "")) ∧
    parseAgentResponse "```\n# File: test.py\nprint(1)\n```" =
      .ok [.tiered "test.py" "print(1)" "Code block 1" none] := by
  constructor
  · intro fp code tag
    simp only [processTriple]
    by_cases hg : isGenericName (pyStrip fp) = true
    · simp [hg]
    · rw [Bool.not_eq_true] at hg
      by_cases hfp : pyStrip fp = ""
      · simp [hg, hfp]
      · have hb : (pyStrip fp != "") = true := bne_iff_ne.mpr hfp
        simp [hg, hb, hfp]
  · rfl

/-- Claim C9 (confirmed): the single `DELETED` marker without a fenced block
parses to one file with empty content, and in general whenever the
tagged-marker tier matched, every `DELETED` entry of the parse result has
empty content. -/
theorem C9_deleted_marker_empty_content :
    parseAgentResponse "📄 File: old.py [DELETED]" =
      .ok [.tiered "old.py" "" "AI-generated file: old.py" (some "DELETED")] ∧
    ∀ (s : String) (l : List PEntry) (f : PEntry),
      changesetTriples s.data ≠ [] →
      parseAgentResponse s = .ok l →
      f ∈ l → actionOf f = some "DELETED" → contentOf f = "" := by
  refine ⟨by rfl, ?_⟩
  intro s l f hne hp hm hd
  have hne2 : changesetTriples s.data ++ spoonosTriples s.data ≠ [] := by
    intro hcon
    exact hne (List.append_eq_nil.mp hcon).1
  rw [parse_explicit_branch s hne2] at hp
  injection hp with hl
  subst hl
  have hm2 := mem_dedupPathsStr _ _ hm
  simp only [processNormalized] at hm2
  obtain ⟨t, ht, hft⟩ := List.mem_filterMap.mp hm2
  exact processTriple_deleted hft hd

/-- Witness for `C9_deleted_marker_empty_content` at a concrete input. -/
theorem C9_deleted_marker_empty_content_witness :
    contentOf (PEntry.tiered "rm.py" "" "AI-generated file: rm.py" (some "DELETED")) = "" :=
  C9_deleted_marker_empty_content.2 "📄 File: rm.py [DELETED]"
    [.tiered "rm.py" "" "AI-generated file: rm.py" (some "DELETED")]
    (.tiered "rm.py" "" "AI-generated file: rm.py" (some "DELETED"))
    (by decide) (by rfl) (List.mem_singleton.mpr rfl) (by rfl)

end SlackSpec

namespace SlackSpec

/-- With non-empty cached files, the change step replays them and its events
are exactly the per-file host operations (no completion call). -/
theorem createAi_cached_events (env : Env) (branch task : String)
    (ctx : Option String) (cached : List PEntry) (hne : cached ≠ []) :
    (createAiGeneratedCode env branch task ctx cached).2 =
      (createFilesLoop env cached).2.1 := by
  have hb : cached.isEmpty = false := isEmpty_false_of_ne_nil hne
  simp only [createAiGeneratedCode, hb, Bool.not_false, if_true, Bool.not_true,
    Bool.false_or, Bool.false_eq_true, if_false]
  split
  · simp
  · split <;> simp

/-- Two handler calls on a fresh thread — an initial task message and a
refinement — characterized: one fetch and one completion in the first cycle,
no fetch and one completion (grounded on the memoized context) in the
second. -/
theorem two_cycle_spec (env : Env) (store : List (String × Conv))
    (u1 u2 msg1 msg2 t : String)
    (h0 : lookupConv store t = none)
    (h1 : detectFileDeletion msg1 = [])
    (h2 : detectFileDeletion msg2 = [])
    (hai : env.useAi = true)
    (href : env.intentSubmit msg2 = false) :
    ∃ cv1 cv2 : Conv,
      (handlePrConversation env store u1 msg1 t true).1 = insertConv store t cv1 ∧
      cv1.codebaseContext = some (memoCtx env none) ∧
      (handlePrConversation env store u1 msg1 t true).2 =
        [Ev.fetchContext, Ev.completionCall (memoCtx env none)] ∧
      (handlePrConversation env (insertConv store t cv1) u2 msg2 t false).1 =
        insertConv (insertConv store t cv1) t cv2 ∧
      (handlePrConversation env (insertConv store t cv1) u2 msg2 t false).2 =
        [Ev.completionCall (memoCtx env none)] := by
  rw [handle_to_propose env store u1 msg1 t true h1 (by simp) hai]
  obtain ⟨cv1, heq1, hctx1⟩ := propose_spec env store t
    (bumpConv ((lookupConv store t).getD (newConv u1 msg1 true)) msg1) hai
  have hcc1 : (bumpConv ((lookupConv store t).getD (newConv u1 msg1 true))
      msg1).codebaseContext = none := by
    simp [bumpConv, h0, newConv]
  rw [hcc1] at heq1 hctx1
  simp only [reduceIte, List.singleton_append] at heq1
  obtain ⟨cv2, heq2, hctx2⟩ := propose_spec env (insertConv store t cv1) t
    (bumpConv ((lookupConv (insertConv store t cv1) t).getD (newConv u2 msg2 false)) msg2) hai
  have hl1 : lookupConv (insertConv store t cv1) t = some cv1 :=
    lookupConv_insertConv store t cv1
  have hcc2 : (bumpConv ((lookupConv (insertConv store t cv1) t).getD
      (newConv u2 msg2 false)) msg2).codebaseContext = some (memoCtx env none) := by
    simp [bumpConv, hl1, hctx1]
  rw [hcc2] at heq2
  have hms : ∀ x : String, memoCtx env (some x) = x := fun _ => rfl
  rw [hms] at heq2
  simp only [reduceCtorEq, reduceIte, List.nil_append] at heq2
  refine ⟨cv1, cv2, ?_, hctx1, ?_, ?_, ?_⟩
  · rw [heq1]
  · rw [heq1]
  · rw [handle_to_propose env (insertConv store t cv1) u2 msg2 t false h2
      (by simp [href]) hai, heq2]
  · rw [handle_to_propose env (insertConv store t cv1) u2 msg2 t false h2
      (by simp [href]) hai, heq2]

/-- Claim C2, counterexample (corrected): after a failed submit the
conversation is retained with `last_error` and untouched `cached_files`
(first two conjuncts, zero completion calls), but a second submit trigger
whose cached-files replay fails against the host performs one completion
call — not zero. -/
theorem C2_counterexample :
    (handlePrConversation env2a [("t2", c2conv)] "U" "make pr" "t2" false).1 =
      c2store1 ∧
    completionCount
      (handlePrConversation env2a [("t2", c2conv)] "U" "make pr" "t2" false).2 = 0 ∧
    completionCount
      (handlePrConversation env2b c2store1 "U" "make pr" "t2" false).2 = 1 :=
  ⟨by rfl, by rfl, by rfl⟩

/-- Claim C2, amended: after a failed submit the conversation is retained
with `last_error` recorded and `cached_files` untouched; a subsequent submit
whose cached-files replay is attempted performs zero completion calls, and
when the replay succeeds it is the entire change step; the files written are
the cached files byte-for-byte except for the escaped-newline repair. -/
theorem C2_amended :
    (∀ (env : Env) (store : List (String × Conv)) (conv : Conv) (u msg t : String),
      lookupConv store t = some conv →
      detectFileDeletion msg = [] →
      env.intentSubmit msg = true →
      (createRandomPr env (joinMessages (conv.messages ++ [("user", msg)]))
        conv.codebaseContext conv.cachedFiles).1.success = false →
      handlePrConversation env store u msg t false =
        (insertConv store t
          { conv with
            messages := conv.messages ++ [("user", msg)],
            lastError := (createRandomPr env (joinMessages (conv.messages ++ [("user", msg)]))
              conv.codebaseContext conv.cachedFiles).1.error },
         (createRandomPr env (joinMessages (conv.messages ++ [("user", msg)]))
           conv.codebaseContext conv.cachedFiles).2)) ∧
    (∀ (env : Env) (branch task : String) (ctx : Option String) (cached : List PEntry),
      cached ≠ [] →
      completionCount (createAiGeneratedCode env branch task ctx cached).2 = 0 ∧
      ((createAiGeneratedCode env branch task ctx cached).1.success = true →
        makeRandomChange env branch task ctx cached =
          createAiGeneratedCode env branch task ctx cached)) ∧
    (∀ (env : Env) (branch task : String) (ctx : Option String) (cached : List PEntry),
      cached ≠ [] →
      (∀ f ∈ cached, (fileActionOf f).isSome ∧ fileActionOf f ≠ some "DELETED" ∧
        env.writeOp (pathStrOf f) ≠ .failed) →
      writtenFiles (createAiGeneratedCode env branch task ctx cached).2 =
        cached.map fun f => (pathStrOf f, fixEscapedNewlines (contentOf f))) := by
  refine ⟨?_, ?_, ?_⟩
  · intro env store conv u msg t hl hdel hint hfail
    rw [handle_to_submit env store u msg t false hdel (by simp [hint]), hl]
    simp only [Option.getD_some]
    exact submit_fail_spec env store t _ hfail
  · intro env branch task ctx cached hne
    constructor
    · rw [createAi_cached_events env branch task ctx cached hne]
      exact createFilesLoop_no_completion env cached
    · intro hsucc
      have hb : cached.isEmpty = false := isEmpty_false_of_ne_nil hne
      simp only [makeRandomChange, hb, Bool.not_false, if_true, hsucc]
  · intro env branch task ctx cached hne hall
    rw [createAi_cached_events env branch task ctx cached hne]
    exact createFilesLoop_written env cached hall

/-- Witness for `C2_amended` at concrete inputs. -/
theorem C2_amended_witness :
    handlePrConversation env2a [("t2", c2conv)] "U" "make pr" "t2" false =
      (insertConv [("t2", c2conv)] "t2"
        { c2conv with
          messages := c2conv.messages ++ [("user", "make pr")],
          lastError := (createRandomPr env2a
            (joinMessages (c2conv.messages ++ [("user", "make pr")]))
            c2conv.codebaseContext c2conv.cachedFiles).1.error },
       (createRandomPr env2a (joinMessages (c2conv.messages ++ [("user", "make pr")]))
         c2conv.codebaseContext c2conv.cachedFiles).2) ∧
    completionCount (createAiGeneratedCode envBase "feature-x" "task" (some "CTX")
      [.tiered "w.py" "pass" "d" (some "NEW")]).2 = 0 ∧
    writtenFiles (createAiGeneratedCode envBase "feature-x" "task" (some "CTX")
      [.tiered "w.py" "pass" "d" (some "NEW")]).2 =
      ([PEntry.tiered "w.py" "pass" "d" (some "NEW")]).map
        (fun f => (pathStrOf f, fixEscapedNewlines (contentOf f))) := by
  refine ⟨C2_amended.1 env2a [("t2", c2conv)] c2conv "U" "make pr" "t2"
      (by rfl) (by rfl) rfl (by rfl),
    (C2_amended.2.1 envBase "feature-x" "task" (some "CTX") _
      (List.cons_ne_nil _ _)).1,
    C2_amended.2.2 envBase "feature-x" "task" (some "CTX") _
      (List.cons_ne_nil _ _) ?_⟩
  intro f hf
  rcases List.mem_singleton.mp hf with rfl
  exact ⟨by rfl, by decide, by decide⟩

/-- Claim C3, counterexample (corrected): a conversation performs its first
(memoized) context fetch in the initial PROPOSING cycle, but a later message
matching the file-deletion pattern triggers the deletion shortcut, which
performs a second, non-memoized context fetch for the same thread — two
fetches within one conversation lifetime. -/
theorem C3_counterexample :
    fetchCount ((handlePrConversation envBase [] "U" "add a login page" "t3" true).2) = 1 ∧
    (lookupConv (handlePrConversation envBase [] "U" "add a login page" "t3" true).1
      "t3").isSome = true ∧
    detectFileDeletion "delete old.py" = ["old.py"] ∧
    fetchCount ((handlePrConversation envBase
      (handlePrConversation envBase [] "U" "add a login page" "t3" true).1
      "U" "delete old.py" "t3" false).2) = 1 :=
  ⟨by rfl, by rfl, by rfl, by rfl⟩

/-- Claim C3, amended: along the propose/refine path the fetch is memoized —
an initial task message followed by a refinement message performs exactly
one context fetch in total; only the deletion shortcut escapes the memo. -/
theorem C3_amended (env : Env) (store : List (String × Conv))
    (u1 u2 msg1 msg2 t : String)
    (h0 : lookupConv store t = none)
    (h1 : detectFileDeletion msg1 = [])
    (h2 : detectFileDeletion msg2 = [])
    (hai : env.useAi = true)
    (href : env.intentSubmit msg2 = false) :
    fetchCount ((handlePrConversation env store u1 msg1 t true).2 ++
      (handlePrConversation env (handlePrConversation env store u1 msg1 t true).1
        u2 msg2 t false).2) = 1 := by
  obtain ⟨cv1, cv2, hs1, hc1, he1, hs2, he2⟩ :=
    two_cycle_spec env store u1 u2 msg1 msg2 t h0 h1 h2 hai href
  rw [he1, hs1, he2]
  simp [fetchCount, isFetchEv]

/-- Witness for `C3_amended` at concrete inputs. -/
theorem C3_amended_witness :
    fetchCount ((handlePrConversation envRefine [] "U" "add a login page" "t9" true).2 ++
      (handlePrConversation envRefine
        (handlePrConversation envRefine [] "U" "add a login page" "t9" true).1
        "U" "also add tests" "t9" false).2) = 1 :=
  C3_amended envRefine [] "U" "U" "add a login page" "also add tests" "t9"
    (by rfl) (by rfl) (by rfl) rfl rfl

/-- Claim C4, counterexample (corrected): on a conversation already marked
`pr_created`, a text submit trigger does not short-circuit: it re-runs the
whole submission (branch creation, file write, change-request creation) and
overwrites the recorded result with a new change request. -/
theorem C4_counterexample :
    (handlePrConversation envBase [("t4", conv4)] "U" "make pr" "t4" false).2 =
      [.hostCreateBranch "feature-x", .hostWriteFile "p.py" "pass", .hostCreatePR] ∧
    lookupConv (handlePrConversation envBase [("t4", conv4)] "U" "make pr" "t4" false).1
      "t4" =
      some { conv4 with
        messages := [("user", "add a page"), ("user", "make pr")],
        prResult := some pr43 } ∧
    pr43 ≠ pr42 :=
  ⟨by rfl, by rfl, by decide⟩

/-- Claim C4, amended: only the button-click path short-circuits — on a
`pr_created` conversation it reports the previously recorded result,
performs no collaborator calls at all, and removes the conversation. -/
theorem C4_amended (env : Env) (store : List (String × Conv)) (t : String)
    (conv : Conv) (hl : lookupConv store t = some conv)
    (hpc : conv.prCreated = true) :
    handleMakePrButtonClick env store t = (eraseConv store t, [], conv.prResult) := by
  simp [handleMakePrButtonClick, hl, hpc]

/-- Witness for `C4_amended` at a concrete state. -/
theorem C4_amended_witness :
    handleMakePrButtonClick envBase [("t4", conv4)] "t4" =
      (eraseConv [("t4", conv4)] "t4", [], conv4.prResult) :=
  C4_amended envBase [("t4", conv4)] "t4" conv4 (by rfl) (by rfl)

/-- Claim C6, counterexample (corrected): with budget 5 (at least one
file\x27s worth: both files are shorter) the fetch loop returns an aggregate
content length of 7, exceeding the budget — the break fires only after the
accumulated length already exceeds it. -/
theorem C6_counterexample :
    fetchTotal 5 [("f1", some "abcd"), ("f2", some "efg")] = 7 ∧
    5 < 7 ∧ ("abcd" : String).length ≤ 5 ∧ ("efg" : String).length ≤ 5 :=
  ⟨by rfl, by decide, by decide, by decide⟩

/-- Claim C6, amended: the aggregate selected-content length can exceed the
budget by at most the largest fetched file (first conjunct), and the loop
stops fetching as soon as the accumulated total strictly exceeds the budget
(second conjunct). -/
theorem C6_amended :
    (∀ (budget : Nat) (files : List (String × Option String)),
      fetchTotal budget files ≤ budget + maxContentLen files) ∧
    (∀ (budget : Nat) (fp : String) (c : Option String)
      (rest : List (String × Option String)) (total added : Nat) (parts : List String),
      total > budget →
      fetchContextLoop budget ((fp, c) :: rest) total added parts =
        (parts, total, added)) := by
  constructor
  · intro budget files
    have h := fetchLoop_total_le budget files 0 0 []
    simpa [fetchTotal, Nat.zero_max] using h
  · intro budget fp c rest total added parts hgt
    simp [fetchContextLoop, hgt]

/-- Witness for `C6_amended` at concrete inputs. -/
theorem C6_amended_witness :
    fetchContextLoop 1 [("g", some "xy")] 2 0 [] = ([], 2, 0) ∧
    fetchTotal 1 [("g", some "xy")] ≤ 1 + maxContentLen [("g", some "xy")] :=
  ⟨C6_amended.2 1 "g" (some "xy") [] 2 0 [] (by decide), C6_amended.1 1 _⟩

/-- Claim C7, counterexample (corrected): in `_create_ai_generated_code` a
failed per-file operation is silently skipped — with `a.py` succeeding and
`b.py` failing, the result is a full-success report naming only `a.py`, with
no mention of the failed path. -/
theorem C7_counterexample :
    (createAiGeneratedCode env7 "feature-x" "task" none
      [.tiered "a.py" "pass" "d1" (some "NEW"),
       .tiered "b.py" "pass2" "d2" (some "NEW")]).1 =
      { success := true, changes := some "AI-generated code: Created a.py",
        error := none } ∧
    strContains "AI-generated code: Created a.py" "b.py" = false :=
  ⟨by rfl, by rfl⟩

/-- Claim C7, amended: `_delete_files` does report partial failures
file-by-file — whenever some paths delete and some fail, the success report
lists both the deleted paths and the per-path errors. -/
theorem C7_amended (env : Env) (paths : List String)
    (hdel : (deleteFilesLoop env paths).1 ≠ [])
    (herr : (deleteFilesLoop env paths).2.1 ≠ []) :
    (deleteFiles env paths).1 =
      { success := true,
        changes := some ("Deleted files: " ++
          String.intercalate ", " (deleteFilesLoop env paths).1 ++
          (" | Errors: " ++ String.intercalate ", " (deleteFilesLoop env paths).2.1)),
        error := none } := by
  have h1 : (deleteFilesLoop env paths).1.isEmpty = false :=
    isEmpty_false_of_ne_nil hdel
  have h2 : (deleteFilesLoop env paths).2.1.isEmpty = false :=
    isEmpty_false_of_ne_nil herr
  simp [deleteFiles, h1, h2]

/-- Witness for `C7_amended` at a concrete partial failure. -/
theorem C7_amended_witness :
    (deleteFiles envDel ["x.py", "y.py"]).1 =
      { success := true,
        changes := some ("Deleted files: " ++
          String.intercalate ", " (deleteFilesLoop envDel ["x.py", "y.py"]).1 ++
          (" | Errors: " ++
            String.intercalate ", " (deleteFilesLoop envDel ["x.py", "y.py"]).2.1)),
        error := none } :=
  C7_amended envDel ["x.py", "y.py"] (by decide) (by decide)

/-- Claim C10 (confirmed): when the context fetch raises, the error string
is stored as the memoized context, later cycles never re-fetch, and every
later completion request is grounded on the stored error text. -/
theorem C10_error_context_memoized (env : Env) (store : List (String × Conv))
    (u1 u2 msg1 msg2 t e : String)
    (hfe : env.fetchResult = .error e)
    (h0 : lookupConv store t = none)
    (h1 : detectFileDeletion msg1 = [])
    (h2 : detectFileDeletion msg2 = [])
    (hai : env.useAi = true)
    (href : env.intentSubmit msg2 = false) :
    (∃ cv, lookupConv (handlePrConversation env store u1 msg1 t true).1 t = some cv ∧
      cv.codebaseContext = some (ctxErrorString env.repoName e)) ∧
    completionContexts (handlePrConversation env store u1 msg1 t true).2 =
      [ctxErrorString env.repoName e] ∧
    fetchCount (handlePrConversation env
      (handlePrConversation env store u1 msg1 t true).1 u2 msg2 t false).2 = 0 ∧
    completionContexts (handlePrConversation env
      (handlePrConversation env store u1 msg1 t true).1 u2 msg2 t false).2 =
      [ctxErrorString env.repoName e] := by
  obtain ⟨cv1, cv2, hs1, hc1, he1, hs2, he2⟩ :=
    two_cycle_spec env store u1 u2 msg1 msg2 t h0 h1 h2 hai href
  have hmc : memoCtx env none = ctxErrorString env.repoName e := by
    simp [memoCtx, hfe]
  rw [hmc] at hc1 he1 he2
  refine ⟨⟨cv1, ?_, hc1⟩, ?_, ?_, ?_⟩
  · rw [hs1]
    exact lookupConv_insertConv store t cv1
  · rw [he1]
    simp [completionContexts]
  · rw [hs1, he2]
    simp [fetchCount, isFetchEv]
  · rw [hs1, he2]
    simp [completionContexts]

/-- Witness for `C10_error_context_memoized` at concrete inputs. -/
theorem C10_error_context_memoized_witness :
    (∃ cv, lookupConv (handlePrConversation envErr [] "U" "add a page" "t10" true).1
      "t10" = some cv ∧
      cv.codebaseContext = some (ctxErrorString envErr.repoName "boom")) ∧
    completionContexts (handlePrConversation envErr [] "U" "add a page" "t10" true).2 =
      [ctxErrorString envErr.repoName "boom"] ∧
    fetchCount (handlePrConversation envErr
      (handlePrConversation envErr [] "U" "add a page" "t10" true).1
      "U" "tweak it" "t10" false).2 = 0 ∧
    completionContexts (handlePrConversation envErr
      (handlePrConversation envErr [] "U" "add a page" "t10" true).1
      "U" "tweak it" "t10" false).2 =
      [ctxErrorString envErr.repoName "boom"] :=
  C10_error_context_memoized envErr [] "U" "U" "add a page" "tweak it" "t10" "boom"
    rfl (by rfl) (by rfl) (by rfl) rfl rfl

end SlackSpec
